import Mathlib

/-!
# Verification of the mcp-time-travel checkpoint engine

A shallow embedding, in Lean 4, of the core of the `mcp-time-travel`
repository (a TypeScript MCP server giving an agent snapshot / diff /
rollback "time travel" over a working directory), together with theorems
settling the frozen claims about it.

Modelling conventions, used throughout:

* JavaScript strings are modelled as `List Char` (`JSString`).  `charCodeAt`
  becomes `Char.toNat` (they agree on the basic multilingual plane, which
  covers every path and pattern the program handles).
* JavaScript numbers used as integer counters/hashes are modelled as `Nat`
  with explicit `% 2^32` where the source applies `>>> 0`.
* Timestamps: the source stores ISO-8601 strings and compares them through
  `new Date(ts).getTime()`.  The model carries the numeric time value
  (epoch milliseconds, an `Int`) directly in the `timestamp` field, i.e. it
  works at the level of the `getTime()` values the comparisons actually use.
* Fallible operations (`throw` in TypeScript) become `Except JSError _`.
* The git backend invoked through `simple-git` is modelled as a
  content-addressed store: a map from commit refs to trees, where a tree is
  a finite map from relative paths to file contents, plus the live worktree
  (the eligible files of the tracked root).  `git add .` (staging) only
  makes untracked eligible files visible to the subsequent diff; since the
  model's worktree already lists exactly the eligible files, staging is the
  identity on the observable state.
-/

/-- A JavaScript string, modelled as its list of UTF-16 code units
(as `Char`s). -/
abbrev JSString := List Char

/-- Convert a Lean string literal to the model's string type. -/
def js (s : String) : JSString := s.toList

/-- Errors thrown by the TypeScript code (`throw new Error(...)`).  The
constructors record which `throw` site fired; message formatting is elided. -/
inductive JSError where
  /-- Thrown as "No workspace path provided." (`getWorkingDirectory`). -/
  | noWorkspacePath : JSError
  /-- Thrown as "Cannot access workspace directory." (access check failed). -/
  | cannotAccess : JSError
  /-- Thrown as "Cannot use checkpoints in ... directory" (protected directory). -/
  | protectedDir (which : JSString) : JSError
  /-- Thrown as "Git must be installed to use checkpoints.". -/
  | gitNotInstalled : JSError
  /-- Thrown as "Failed to create checkpoint commit" (commit failure). -/
  | commitFailed : JSError
  /-- git subprocess error: unknown ref passed to diff / reset. -/
  | badRef : JSString → JSError
  /-- Thrown as "Checkpoint not found: ..." (`rollbackCheckpoint`). -/
  | checkpointNotFound (id : JSString) : JSError
  /-- Thrown as "Working directory path cannot be empty" (`hashWorkingDir`). -/
  | emptyWorkingDir : JSError
  /-- Thrown as "Failed to create checkpoint: ..." — the re-thrown wrapper from
  `createCheckpoint`'s catch block. -/
  | createFailed (inner : JSError) : JSError
deriving DecidableEq, Repr

/-! ## String helpers translated from the JavaScript string API -/

/-- JavaScript `s.split(sep)` for a single-character separator: splits into
the (never empty) list of chunks between occurrences of `sep`.
`"".split(sep)` is `[""]`, `"a/".split('/')` is `["a", ""]`. -/
def jsSplit (sep : Char) : JSString → List JSString
  | [] => [[]]
  | c :: cs =>
    if c = sep then [] :: jsSplit sep cs
    else
      match jsSplit sep cs with
      | [] => [[c]]
      | p :: ps => (c :: p) :: ps

/-- JavaScript `file.split('/').pop() || file` as used by
`CheckpointTracker.matchesPattern`: the last path component, except that a
falsy (empty) last component makes the whole path be used instead. -/
def jsBasenamePop (file : JSString) : JSString :=
  let last := (jsSplit '/' file).getLastD []
  if last = [] then file else last

/-! ## The restricted regular-expression model

`matchesPattern` translates a glob pattern to a JavaScript regular
expression by `pattern.replace(/\*/g, '.*')` and then evaluates
`new RegExp(regexPattern).test(file)`, falling back to exact string
equality when the `RegExp` constructor throws.  The model implements the
`RegExp` fragment that this translation produces: literal characters, the
any-character dot, and star-quantified atoms.  Regex metacharacters outside
this fragment make `parseRegex` return `none`, which models the
"translation is not a valid pattern" fallback branch (a conservative
restriction of the JavaScript engine: the fragment actually generated from
the shipped exclusion catalogs never uses them).  A leading `*`, or a `*`
following another quantifier, is "nothing to repeat" and is likewise
invalid, exactly as in JavaScript. -/

/-- One regex atom: the any-character dot or a literal character. -/
inductive RAtom where
  | any : RAtom
  | lit (c : Char) : RAtom
deriving DecidableEq, Repr

/-- Does one atom match one character? -/
def ratomMatch : RAtom → Char → Bool
  | .any, _ => true
  | .lit c, d => c = d

/-- A parsed regex: a sequence of atoms, each optionally star-quantified. -/
abbrev Regex := List (RAtom × Bool)

/-- Regex metacharacters the restricted model does not implement; their
presence makes the translation count as invalid. -/
def regexMetaChars : List Char :=
  ['(', ')', '[', ']', '\\', '+', '?', '|', '^', '$'] ++ ['\x7b', '\x7d']

/-- Parse a regex string into the restricted `Regex` form; `none` models a
`RegExp` constructor failure (or a construct outside the fragment). -/
def parseRegex : JSString → Option Regex
  | [] => some []
  | c :: rest =>
    if c ∈ regexMetaChars then none
    else if c = '*' then none
    else
      let atom := if c = '.' then RAtom.any else RAtom.lit c
      match rest with
      | '*' :: rest' => (parseRegex rest').map ((atom, true) :: ·)
      | [] => some [(atom, false)]
      | c' :: rest' => (parseRegex (c' :: rest')).map ((atom, false) :: ·)

/-- Does the regex match some prefix of the character list?  (Standard
backtracking acceptor; `[]` accepts because the remainder of the input is
irrelevant to an unanchored `test`.) -/
def reAccept : Regex → List Char → Bool
  | [], _ => true
  | (a, false) :: rs, c :: cs => ratomMatch a c && reAccept rs cs
  | (_, false) :: _, [] => false
  | (a, true) :: rs, cs =>
    reAccept rs cs ||
      match cs with
      | [] => false
      | c :: cs' => ratomMatch a c && reAccept ((a, true) :: rs) cs'
termination_by re cs => (cs.length, re.length)

/-- JavaScript `re.test(s)`: unanchored — the regex may match starting at
any position of `s`. -/
def reTest (re : Regex) (s : JSString) : Bool :=
  s.tails.any (reAccept re)

/-- The glob-to-regex translation `pattern.replace(/\*/g, '.*')`:
every `*` becomes the two characters `.` `*`. -/
def globTranslate (pattern : JSString) : JSString :=
  pattern.flatMap (fun c => if c = '*' then ['.', '*'] else [c])

/-! ## `CheckpointTracker.matchesPattern`  (src/checkpoint/CheckpointTracker.ts) -/

/-- Translation of the private `matchesPattern(file, pattern)` helper of
`CheckpointTracker`:

```ts
if (pattern.endsWith('/')) {
  const dirPattern = pattern.slice(0, -1);
  return file.startsWith(dirPattern + '/') || file === dirPattern;
} else if (pattern.startsWith('*.')) {
  const ext = pattern.slice(1);
  return file.endsWith(ext);
} else if (pattern.includes('*')) {
  const regexPattern = pattern.replace(/\*/g, '.*');
  try { return new RegExp(regexPattern).test(file); }
  catch { return file === pattern; }
} else {
  const fileName = file.split('/').pop() || file;
  return file === pattern || fileName === pattern;
}
``` -/
def matchesPattern (file pattern : JSString) : Bool :=
  if pattern.getLast? = some '/' then
    let dirPattern := pattern.dropLast
    (dirPattern ++ ['/']).isPrefixOf file || file = dirPattern
  else if ['*', '.'].isPrefixOf pattern then
    let ext := pattern.drop 1
    ext.isSuffixOf file
  else if pattern.contains '*' then
    match parseRegex (globTranslate pattern) with
    | some re => reTest re file
    | none => file = pattern
  else
    let fileName := jsBasenamePop file
    file = pattern || fileName = pattern

/-! ## `hashWorkingDir`  (src/checkpoint/CheckpointUtils.ts) -/

/-- Little-endian decimal digits of a natural number, fuel-driven so that
it reduces by kernel computation; `fuel = n` always suffices, so the
fuel-exhausted base case is unreachable from `natDigitsRev`. -/
def natDigitsRevGo : Nat → Nat → List Nat
  | 0, n => [n % 10]
  | fuel + 1, n => if n < 10 then [n] else n % 10 :: natDigitsRevGo fuel (n / 10)

/-- Little-endian decimal digits of a natural number (`BigInt.toString`
model, digit values). -/
def natDigitsRev (n : Nat) : List Nat := natDigitsRevGo n n

/-- Decimal string of a natural number, as `BigInt.prototype.toString`
produces it. -/
def natToDecimal (n : Nat) : JSString :=
  (natDigitsRev n).reverse.map Nat.digitChar

/-- The 32-bit string hash underlying `hashWorkingDir`:
`hash = (hash * 31 + workingDir.charCodeAt(i)) >>> 0` over all characters.
`>>> 0` is reduction modulo `2^32`. -/
def hash31 (workingDir : JSString) : Nat :=
  workingDir.foldl (fun h c => (h * 31 + c.toNat) % 4294967296) 0

/-- Translation of `hashWorkingDir(workingDir)`:

```ts
if (!workingDir) throw new Error("Working directory path cannot be empty");
let hash = 0;
for (let i = 0; i < workingDir.length; i++) {
  hash = (hash * 31 + workingDir.charCodeAt(i)) >>> 0;
}
const bigHash = BigInt(hash);
const numericHash = bigHash.toString().slice(0, 13);
return numericHash;
``` -/
def hashWorkingDir (workingDir : JSString) : Except JSError JSString :=
  if workingDir = [] then .error .emptyWorkingDir
  else .ok ((natToDecimal (hash31 workingDir)).take 13)

/-! ## Data model: trees, the shadow git store, checkpoint records -/

/-- A snapshot tree: a finite map from relative paths to file contents,
as an association list (first binding wins). -/
abbrev FileTree := List (JSString × JSString)

/-- Content of `path` in a tree, if the path exists there. -/
def treeLookup (t : FileTree) (path : JSString) : Option JSString :=
  (t.find? (fun e => e.1 = path)).map (·.2)

/-- The paths bound in a tree. -/
def treePaths (t : FileTree) : List JSString := t.map (·.1)

/-- The distinct paths whose content differs between two trees — the
model of the file list of `git.diffSummary` between the two trees
("one entry per distinct changed path"). -/
def treeDiffPaths (t₁ t₂ : FileTree) : List JSString :=
  ((treePaths t₁ ++ treePaths t₂).dedup).filter
    (fun p => ¬ treeLookup t₁ p = treeLookup t₂ p)

/-- The shadow git repository of one workspace: the commit store (ref ↦
committed tree, newest first — the single-branch history that `git log`
walks) and the live worktree restricted to the eligible files of the
tracked root. -/
structure GitState where
  commits : List (JSString × FileTree)
  worktree : FileTree
deriving DecidableEq, Repr

/-- FileTree of a commit ref, if the ref exists in the store. -/
def commitTree (g : GitState) (ref : JSString) : Option FileTree :=
  (g.commits.find? (fun e => e.1 = ref)).map (·.2)

/-- Translation of `CheckpointTracker.cleanCommitHash`: strip a legacy `"HEAD "` prefix. -/
def cleanCommitHash (hash : JSString) : JSString :=
  if (js "HEAD ").isPrefixOf hash then hash.drop 5 else hash

/-- A `CheckpointMetadata` record (src/types.ts).  `timestamp` carries the
numeric `Date.getTime()` value of the stored ISO-8601 string. -/
structure CheckpointRec where
  id : JSString
  timestamp : Int
  message : Option JSString
  commitHash : JSString
  filesChanged : Nat
  workspaceHash : JSString
deriving DecidableEq, Repr

/-- The on-disk `metadata.json` of one workspace, as the loader sees it:
absent, unreadable-or-invalid JSON, or a valid record list. -/
inductive MetaFileState where
  | missing : MetaFileState
  | corrupt : MetaFileState
  | valid (records : List CheckpointRec) : MetaFileState
deriving DecidableEq, Repr

/-! ## `CheckpointMetadataStore`  (src/checkpoint/CheckpointMetadata.ts) -/

/-- Translation of `loadMetadata()`: read and `JSON.parse` the metadata file; any error
(missing file, invalid JSON) is caught and yields the empty list. -/
def loadMetadata : MetaFileState → List CheckpointRec
  | .missing => []
  | .corrupt => []
  | .valid records => records

/-- Translation of `getCheckpoint(checkpointId)`: `metadata.find(cp => cp.id === id)`. -/
def getCheckpoint (f : MetaFileState) (checkpointId : JSString) :
    Option CheckpointRec :=
  (loadMetadata f).find? (fun cp => cp.id = checkpointId)

/-- The comparator-induced order of
`metadata.sort((a, b) => new Date(b.timestamp).getTime() - new Date(a.timestamp).getTime())`:
`a` may stay before `b` iff the comparator is ≤ 0 there, i.e. iff
`b.timestamp ≤ a.timestamp`. -/
def tsDesc (a b : CheckpointRec) : Prop := b.timestamp ≤ a.timestamp

instance : DecidableRel tsDesc := fun a b => Int.decLe b.timestamp a.timestamp

instance : IsTotal CheckpointRec tsDesc :=
  ⟨fun a b => Int.le_total b.timestamp a.timestamp⟩

instance : IsTrans CheckpointRec tsDesc :=
  ⟨fun _ _ _ hab hbc => le_trans hbc hab⟩

/-- Model of `getAllCheckpoints()` on an already-loaded record list:
`Array.prototype.sort` with the descending-timestamp comparator.  The
ECMAScript specification requires `sort` to be stable, and for a
consistent comparator every stable sort produces the same output, so the
model uses a stable insertion sort. -/
def sortCheckpoints (records : List CheckpointRec) : List CheckpointRec :=
  records.insertionSort tsDesc

/-- Translation of `getAllCheckpoints()`: load, then sort newest-first. -/
def getAllCheckpoints (f : MetaFileState) : List CheckpointRec :=
  sortCheckpoints (loadMetadata f)

/-- Translation of `getLatestCheckpoint()`: `(await getAllCheckpoints())[0]`, `undefined`
on an empty store. -/
def getLatestCheckpoint (f : MetaFileState) : Option CheckpointRec :=
  (getAllCheckpoints f).head?

/-- Translation of `addCheckpoint(checkpoint)`: load, push, save. -/
def addCheckpoint (f : MetaFileState) (checkpoint : CheckpointRec) :
    MetaFileState :=
  .valid (loadMetadata f ++ [checkpoint])

/-! ## Workspace validation  (src/config.ts, src/checkpoint/CheckpointUtils.ts) -/

/-- Model of `path.join(homedir, name)` for the protected-subfolder names: the
inputs are canonical absolute paths, so join is append-with-separator. -/
def pathJoin (dir name : JSString) : JSString := dir ++ '/' :: name

/-- Ambient facts about the process environment that the TypeScript code
observes through `os`, `fs` and `process.env`. -/
structure Env where
  /-- Value of `os.homedir()`. -/
  homedir : JSString
  /-- Value of `config.workspacePath` — already `path.resolve`d by `CheckpointConfig`. -/
  workspacePath : JSString
  /-- Does `fs.access(workspacePath, R_OK | W_OK)` succeed? -/
  accessible : Bool
  /-- Does `simpleGit().version()` succeed (git installed)? -/
  gitAvailable : Bool
deriving DecidableEq, Repr

/-- Translation of `getWorkingDirectory(workspacePath)` (CheckpointUtils.ts): require a
path, require access, then a `switch` on exact equality with the home
directory and its Desktop/Documents/Downloads subfolders; otherwise return
the resolved path. -/
def getWorkingDirectory (env : Env) : Except JSError JSString :=
  if env.workspacePath = [] then .error .noWorkspacePath
  else
    let cwd := env.workspacePath
    if ¬ env.accessible then .error .cannotAccess
    else if cwd = env.homedir then .error (.protectedDir (js "home"))
    else if cwd = pathJoin env.homedir (js "Desktop") then
      .error (.protectedDir (js "Desktop"))
    else if cwd = pathJoin env.homedir (js "Documents") then
      .error (.protectedDir (js "Documents"))
    else if cwd = pathJoin env.homedir (js "Downloads") then
      .error (.protectedDir (js "Downloads"))
    else .ok cwd

/-- Translation of `CheckpointConfig.validateWorkspacePath()` (config.ts): require access,
then fail iff the workspace path is a member of the protected-paths array
(`protectedPaths.includes(this.workspacePath)`; the reported name is
`path.basename` of the path, elided here to the membership fact). -/
def validateWorkspacePath (env : Env) : Except JSError Unit :=
  if ¬ env.accessible then .error .cannotAccess
  else
    let protectedPaths := [env.homedir,
      pathJoin env.homedir (js "Desktop"),
      pathJoin env.homedir (js "Documents"),
      pathJoin env.homedir (js "Downloads")]
    if env.workspacePath ∈ protectedPaths then
      .error (.protectedDir (js "basename"))
    else .ok ()

/-- Translation of `config.validate()`: validate the workspace path (the storage-path
check never throws). -/
def configValidate (env : Env) : Except JSError Unit :=
  validateWorkspacePath env

/-! ## `CheckpointTracker` git operations  (src/checkpoint/CheckpointTracker.ts) -/

/-- The file list of `git.diffSummary` between `cleanCommitHash lhsHash`
and either `cleanCommitHash rhsHash` or the (staged) working directory —
the shared core of `getDiffSet` and `getDiffCount`.  An unknown ref makes
the git subprocess fail, surfacing as a thrown error. -/
def diffSummaryFiles (g : GitState) (lhsHash : JSString)
    (rhsHash : Option JSString) : Except JSError (List JSString) :=
  match commitTree g (cleanCommitHash lhsHash) with
  | none => .error (.badRef lhsHash)
  | some lhsTree =>
    match rhsHash with
    | some rh =>
      match commitTree g (cleanCommitHash rh) with
      | none => .error (.badRef rh)
      | some rhsTree => .ok (treeDiffPaths lhsTree rhsTree)
    | none => .ok (treeDiffPaths lhsTree g.worktree)

/-- A `CheckpointDiff` entry (src/types.ts). -/
structure CheckpointDiff where
  relativePath : JSString
  absolutePath : JSString
  before : JSString
  after : JSString
deriving DecidableEq, Repr

/-- Translation of `CheckpointTracker.getDiffSet(lhsHash, rhsHash?)`: stage, take the
`diffSummary` file list, and materialize one entry per file; `git show`
(resp. `fs.readFile`) failures for a side where the file does not exist
leave that side's content empty. -/
def getDiffSet (g : GitState) (cwd : JSString) (lhsHash : JSString)
    (rhsHash : Option JSString) : Except JSError (List CheckpointDiff) :=
  match diffSummaryFiles g lhsHash rhsHash with
  | .error e => .error e
  | .ok files =>
    .ok (files.map (fun filePath =>
      let beforeContent :=
        ((commitTree g (cleanCommitHash lhsHash)).bind
          (fun t => treeLookup t filePath)).getD []
      let afterContent :=
        match rhsHash with
        | some rh =>
          ((commitTree g (cleanCommitHash rh)).bind
            (fun t => treeLookup t filePath)).getD []
        | none => (treeLookup g.worktree filePath).getD []
      { relativePath := filePath
        absolutePath := pathJoin cwd filePath
        before := beforeContent
        after := afterContent }))

/-- Translation of `CheckpointTracker.getDiffCount(lhsHash, rhsHash?)`: same staging and
`diffSummary` invocation as `getDiffSet`, returning
`diffSummary.files.length` without materializing contents. -/
def getDiffCount (g : GitState) (lhsHash : JSString)
    (rhsHash : Option JSString) : Except JSError Nat :=
  (diffSummaryFiles g lhsHash rhsHash).map List.length

/-- Translation of `CheckpointTracker.commit()`: stage everything eligible and commit
with `--allow-empty`; always produces a new commit whose tree is the
current worktree and returns its hash.  The model takes the fresh ref the
backend would generate as the `newRef` argument. -/
def trackerCommit (g : GitState) (newRef : JSString) : GitState × JSString :=
  ({ g with commits := (newRef, g.worktree) :: g.commits }, newRef)

/-- Translation of `CheckpointTracker.resetHead(commitHash)`:
`git reset --hard <cleaned hash>` — the worktree's eligible-file content
becomes exactly the target commit's tree; an unknown ref fails. -/
def resetHead (g : GitState) (commitHash : JSString) :
    Except JSError GitState :=
  match commitTree g (cleanCommitHash commitHash) with
  | none => .error (.badRef commitHash)
  | some t => .ok { g with worktree := t }

/-- Translation of `CheckpointTracker.getCommitLog(maxCount)`: newest-first history,
bounded by `maxCount`. -/
def getCommitLog (g : GitState) (maxCount : Nat) :
    List (JSString × FileTree) :=
  g.commits.take maxCount

/-- Translation of `CheckpointTracker.create(taskId, storagePath, workspacePath)`:
require git to be installed, resolve and validate the working directory,
hash it, and (idempotently) initialize the shadow repository.  Returns the
`cwdHash` workspace identity the tracker carries. -/
def trackerCreate (env : Env) : Except JSError JSString := do
  if ¬ env.gitAvailable then throw .gitNotInstalled
  let workingDir ← getWorkingDirectory env
  hashWorkingDir workingDir

/-! ## The two operation flows  (src/tools/checkpoint.ts, src/tools/rollback.ts) -/

/-- The whole observable state one operation runs against: the process
environment, the shadow git store of the workspace, and its metadata file. -/
structure SysState where
  env : Env
  git : GitState
  metaFile : MetaFileState
deriving DecidableEq, Repr

/-- A `CreateCheckpointResult` (src/types.ts). -/
structure CreateCheckpointResult where
  checkpointId : JSString
  timestamp : Int
  filesChanged : Nat
  commitHash : JSString
deriving DecidableEq, Repr

/-- The `try` block of `createCheckpoint` (src/tools/checkpoint.ts):

```ts
const commitHash = await tracker.commit();
if (!commitHash) throw new Error("Failed to create checkpoint commit");
const workspaceInfo = tracker.getWorkspaceInfo();
const checkpointId = generateId();
const timestamp = new Date().toISOString();
const metadataStore = new CheckpointMetadataStore(config.storagePath, workspaceInfo.cwdHash);
const latestCheckpoint = await metadataStore.getLatestCheckpoint();
let filesChanged = 0;
if (latestCheckpoint) {
  filesChanged = await tracker.getDiffCount(latestCheckpoint.commitHash);
} else {
  const log = await tracker.getCommitLog(1);
  if (log.length > 0) {
    filesChanged = 1; // Placeholder for initial commit
  }
}
await metadataStore.addCheckpoint({ id, timestamp, message, commitHash, filesChanged, workspaceHash });
return { checkpointId, timestamp, filesChanged, commitHash };
```

The fresh id, the clock reading, and the fresh commit ref are taken as
arguments (`newId`, `now`, `newRef`). -/
def createCheckpointTry (st : SysState) (cwdHash : JSString)
    (newRef newId : JSString) (now : Int) (message : Option JSString) :
    Except JSError (SysState × CreateCheckpointResult) := do
  let (git1, commitHash) := trackerCommit st.git newRef
  if commitHash = [] then Except.error .commitFailed else do
  let latestCheckpoint := getLatestCheckpoint st.metaFile
  let filesChanged ←
    match latestCheckpoint with
    | some latest => getDiffCount git1 latest.commitHash none
    | none =>
      let log := getCommitLog git1 1
      Except.ok (if log.length > 0 then 1 else 0)
  let record : CheckpointRec :=
    { id := newId, timestamp := now, message := message,
      commitHash := commitHash, filesChanged := filesChanged,
      workspaceHash := cwdHash }
  let metaFile' := addCheckpoint st.metaFile record
  Except.ok ({ st with git := git1, metaFile := metaFile' },
    { checkpointId := newId, timestamp := now,
      filesChanged := filesChanged, commitHash := commitHash })

/-- Translation of `createCheckpoint(args)` (src/tools/checkpoint.ts): validate the
configuration and build the tracker (both outside the `try`), then run the
`try` block; any error inside it is caught and re-thrown wrapped
("Failed to create checkpoint: ..."). -/
def createCheckpoint (st : SysState) (newRef newId : JSString) (now : Int)
    (message : Option JSString) :
    Except JSError (SysState × CreateCheckpointResult) := do
  configValidate st.env
  let cwdHash ← trackerCreate st.env
  match createCheckpointTry st cwdHash newRef newId now message with
  | .ok r => .ok r
  | .error e => .error (.createFailed e)

/-- A `RollbackResult` (src/types.ts); the human-readable `message` text
is reduced to a fixed tag. -/
structure RollbackResult where
  success : Bool
  filesRestored : Nat
  message : JSString
  checkpointId : JSString
deriving DecidableEq, Repr

/-- The `try` block of `rollbackCheckpoint` (src/tools/rollback.ts):

```ts
const targetCheckpoint = await metadataStore.getCheckpoint(args.checkpointId);
if (!targetCheckpoint) throw new Error(`Checkpoint not found: ...`);
const tracker = await CheckpointTracker.create(taskId, storagePath, workspacePath);
const currentCheckpoint = await metadataStore.getLatestCheckpoint();
let filesRestored = 0;
if (currentCheckpoint && currentCheckpoint.id !== args.checkpointId) {
  filesRestored = await tracker.getDiffCount(targetCheckpoint.commitHash, currentCheckpoint.commitHash);
}
await tracker.resetHead(targetCheckpoint.commitHash);
return { success: true, filesRestored, message, checkpointId };
``` -/
def rollbackTry (st : SysState) (checkpointId : JSString) :
    Except JSError (SysState × RollbackResult) := do
  match getCheckpoint st.metaFile checkpointId with
  | none => Except.error (.checkpointNotFound checkpointId)
  | some targetCheckpoint => do
    let _cwdHash ← trackerCreate st.env
    let currentCheckpoint := getLatestCheckpoint st.metaFile
    let filesRestored ←
      match currentCheckpoint with
      | some current =>
        if current.id ≠ checkpointId then
          getDiffCount st.git targetCheckpoint.commitHash
            (some current.commitHash)
        else Except.ok 0
      | none => Except.ok 0
    let git' ← resetHead st.git targetCheckpoint.commitHash
    Except.ok ({ st with git := git' },
      { success := true, filesRestored := filesRestored,
        message := js "rollback-ok", checkpointId := checkpointId })

/-- Translation of `rollbackCheckpoint(args)` (src/tools/rollback.ts): `config.validate()`
and `hashWorkingDir(config.workspacePath)` run **before** the `try`
block, so their failures propagate as thrown errors; every failure inside
the `try` is caught and converted to a structured
`{success: false, filesRestored: 0, ...}` result with the state left as it
was when the error fired (the only mutation, `resetHead`, is the last
step). -/
def rollbackCheckpoint (st : SysState) (checkpointId : JSString) :
    Except JSError (SysState × RollbackResult) := do
  configValidate st.env
  let _workspaceHash ← hashWorkingDir st.env.workspacePath
  match rollbackTry st checkpointId with
  | .ok r => .ok r
  | .error _e =>
    .ok (st, { success := false, filesRestored := 0,
               message := js "rollback-failed", checkpointId := checkpointId })

/-! ## Specification-side definitions and concrete fixtures -/

/-- The exclusion-pattern matching semantics exactly as the specification
sentence states them (spec §4.2 / claim C5), to be compared with the
implementation's `matchesPattern`:

* a trailing-slash pattern matches the paths equal to that directory or
  nested under it;
* a `*.`-leading pattern matches the paths ending in that suffix;
* any other pattern containing `*` is matched by the glob-to-regex
  translation, falling back to exact string equality when the translation
  is not a valid regex;
* all remaining patterns match by full-path equality or basename equality
  (basename in the `split('/').pop() || file` sense). -/
def specMatches (file pattern : JSString) : Prop :=
  if pattern.getLast? = some '/' then
    file = pattern.dropLast ∨ ∃ rest, file = pattern.dropLast ++ '/' :: rest
  else if ['*', '.'].isPrefixOf pattern then
    ∃ pre, file = pre ++ pattern.drop 1
  else if pattern.contains '*' then
    match parseRegex (globTranslate pattern) with
    | some re => reTest re file = true
    | none => file = pattern
  else
    file = pattern ∨ jsBasenamePop file = pattern

/-- The system state after a rollback call, whatever its outcome: a thrown
error leaves the state as it was. -/
def rollbackFinalState (st : SysState) (checkpointId : JSString) : SysState :=
  match rollbackCheckpoint st checkpointId with
  | .ok (st', _) => st'
  | .error _ => st

/-- A valid environment fixture: git installed, readable workspace `/w`
outside every protected directory of home `/home/u`. -/
def env0 : Env :=
  { homedir := js "/home/u", workspacePath := js "/w",
    accessible := true, gitAvailable := true }

/-- Fixture: a fresh workspace holding two eligible files and no
checkpoint history — the first-checkpoint situation. -/
def st0 : SysState :=
  { env := env0
    git := { commits := []
             worktree := [(js "a.txt", js "hello"), (js "b.txt", js "x")] }
    metaFile := .valid [] }

/-- Fixture: the checkpoint record the first `createCheckpoint` run on
`st0` stores. -/
def rec1 : CheckpointRec :=
  { id := js "id1", timestamp := 0, message := none, commitHash := js "c1",
    filesChanged := 1, workspaceHash := js "1576" }

/-- Fixture: the state after the first checkpoint of `st0` and two
subsequent worktree edits (`a.txt` modified, `c.txt` added) — the
second-checkpoint situation. -/
def stC2 : SysState :=
  { env := env0
    git := { commits := [(js "c1",
               [(js "a.txt", js "hello"), (js "b.txt", js "x")])]
             worktree := [(js "a.txt", js "world"), (js "b.txt", js "x"),
               (js "c.txt", js "new")] }
    metaFile := .valid [rec1] }

/-- Fixture: the same stored state but with the workspace path pointing at
the user's home directory — configuration validation fails there. -/
def stBad : SysState :=
  { st0 with env := { env0 with workspacePath := js "/home/u" } }

/-! # Theorems -/

/-! ## General lemmas about the model -/

/-- Diffing a tree against itself yields no changed paths. -/
theorem treeDiffPaths_self (t : FileTree) : treeDiffPaths t t = [] := by
  simp [treeDiffPaths]

/-- The 31-accumulating hash stays below `2^32` (it is reduced modulo
`2^32` at every step). -/
theorem hash31_aux (l : List Char) (acc : Nat) (h : acc < 4294967296) :
    List.foldl (fun h c => (h * 31 + c.toNat) % 4294967296) acc l
      < 4294967296 := by
  induction l generalizing acc with
  | nil => simpa
  | cons c cs ih => exact ih _ (Nat.mod_lt _ (by omega))

/-- Fact that `hash31` is a 32-bit value. -/
theorem hash31_lt (wd : JSString) : hash31 wd < 4294967296 :=
  hash31_aux wd 0 (by omega)

/-- The digit list of a natural number is never empty. -/
theorem natDigitsRevGo_ne_nil (fuel n : Nat) : natDigitsRevGo fuel n ≠ [] := by
  cases fuel with
  | zero => simp [natDigitsRevGo]
  | succ fuel => rw [natDigitsRevGo]; split <;> simp

/-- The digit list of a natural number is never empty. -/
theorem natDigitsRev_ne_nil (n : Nat) : natDigitsRev n ≠ [] :=
  natDigitsRevGo_ne_nil n n

/-- A number below `10^k` has at most `k` decimal digits, whatever the
fuel. -/
theorem natDigitsRevGo_len_le (fuel : Nat) :
    ∀ k n, 1 ≤ k → n < 10 ^ k → (natDigitsRevGo fuel n).length ≤ k := by
  induction fuel with
  | zero =>
    intro k n hk _
    simpa [natDigitsRevGo] using hk
  | succ fuel ih =>
    intro k n hk hn
    rw [natDigitsRevGo]
    split
    · simpa using hk
    · rename_i h10
      have hk2 : 2 ≤ k := by
        by_contra hc
        have : k = 1 := by omega
        subst this
        simp at hn
        omega
      have hdiv : n / 10 < 10 ^ (k - 1) := by
        rw [Nat.div_lt_iff_lt_mul (by omega)]
        calc n < 10 ^ k := hn
        _ = 10 ^ (k - 1) * 10 := by
              rw [← pow_succ]
              congr 1
              omega
      have := ih (k - 1) (n / 10) (by omega) hdiv
      simp only [List.length_cons]
      omega

/-- A number below `10^k` has at most `k` decimal digits. -/
theorem natDigitsRev_len_le (k n : Nat) (hk : 1 ≤ k) (hn : n < 10 ^ k) :
    (natDigitsRev n).length ≤ k :=
  natDigitsRevGo_len_le n k n hk hn

/-- Every entry of the digit list is a digit value. -/
theorem natDigitsRevGo_digits_lt (fuel : Nat) :
    ∀ n, ∀ d ∈ natDigitsRevGo fuel n, d < 10 := by
  induction fuel with
  | zero =>
    intro n d hd
    simp [natDigitsRevGo] at hd
    subst hd
    exact Nat.mod_lt _ (by omega)
  | succ fuel ih =>
    intro n d hd
    rw [natDigitsRevGo] at hd
    split at hd
    · rename_i h
      simp at hd
      omega
    · simp at hd
      rcases hd with rfl | hd
      · exact Nat.mod_lt _ (by omega)
      · exact ih (n / 10) d hd

/-- Every entry of the digit list is a digit value. -/
theorem natDigitsRev_digits_lt (n : Nat) : ∀ d ∈ natDigitsRev n, d < 10 :=
  natDigitsRevGo_digits_lt n n

/-- Digit values map to digit characters. -/
theorem digitChar_isDigit (d : Nat) (h : d < 10) :
    (Nat.digitChar d).isDigit = true := by
  interval_cases d <;> decide

/-! ## C7 — `getDiffCount` refines `getDiffSet` -/

/-- C7: for every pair of refs (`lhsHash`, and optional `rhsHash`), the
integer `getDiffCount` returns equals the number of entries `getDiffSet`
returns on the same pair — including agreement on the error case, since
both run the same `diffSummary` invocation. -/
theorem getDiffCount_eq_getDiffSet_length (g : GitState)
    (cwd lhsHash : JSString) (rhsHash : Option JSString) :
    getDiffCount g lhsHash rhsHash =
      (getDiffSet g cwd lhsHash rhsHash).map List.length := by
  unfold getDiffCount getDiffSet
  cases h : diffSummaryFiles g lhsHash rhsHash <;>
    simp [Except.map, List.length_map]

/-! ## C10 — missing/corrupt metadata degrades to the empty index -/

/-- C10: when the per-workspace metadata file is missing or not valid
JSON, `loadMetadata` returns the empty list, so `getCheckpoint` finds no
record for any id, `getAllCheckpoints` is empty, and
`getLatestCheckpoint` is `none`. -/
theorem metadata_load_failure_degrades (f : MetaFileState)
    (checkpointId : JSString) (h : f = .missing ∨ f = .corrupt) :
    getCheckpoint f checkpointId = none ∧ getAllCheckpoints f = [] ∧
      getLatestCheckpoint f = none := by
  rcases h with h | h <;> subst h <;>
    simp [getCheckpoint, getAllCheckpoints, getLatestCheckpoint,
      loadMetadata, sortCheckpoints, List.insertionSort]

/-- Witness for C10 at the concrete missing-file state. -/
theorem metadata_load_failure_degrades_witness :
    ((MetaFileState.missing = .missing ∨ MetaFileState.missing = .corrupt)) ∧
    (getCheckpoint .missing (js "x") = none ∧
      getAllCheckpoints .missing = [] ∧
      getLatestCheckpoint .missing = none) :=
  ⟨Or.inl rfl, metadata_load_failure_degrades .missing (js "x") (Or.inl rfl)⟩

/-! ## C1 — the first checkpoint's `filesChanged` is a placeholder `1` -/

/-- C1 (refuting evaluation): on a fresh workspace holding **two**
eligible files and no previous checkpoint record, `createCheckpoint`
records `filesChanged = 1` — the source's hard-coded
"Placeholder for initial commit" — while the diff count between the empty
tree and the new snapshot (the number of eligible files, which the claim
and spec §4.5 require) is `2`. -/
theorem createCheckpoint_first_placeholder :
    (createCheckpoint st0 (js "c1") (js "id1") 0 none).map
        (fun r => r.2.filesChanged) = .ok 1 ∧
      (treeDiffPaths [] st0.git.worktree).length = 2 := by
  constructor
  · rfl
  · rfl

/-! ## C6 — workspace identity: numeric and deterministic, but not 13 digits -/

/-- C6 (refuting evaluation): `hashWorkingDir` applied to the non-empty
path `"/a"` yields `"1554"`, a 4-character string — not a fixed-width
13-digit string.  (`>>> 0` caps the hash below `2^32`, whose decimal form
has at most 10 digits, so the `.slice(0, 13)` never pads nor truncates.) -/
theorem hashWorkingDir_not_13_digits :
    hashWorkingDir (js "/a") = .ok (js "1554") ∧ (js "1554").length ≠ 13 := by
  constructor
  · rfl
  · decide

/-- C6 (amended): for every non-empty working-directory path, the
workspace identity function succeeds and returns a non-empty all-digit
numeric string of at most 10 characters (the decimal representation of a
32-bit hash; the 13-character slice never engages).  Determinism — the
same path always yields the same identity string — holds definitionally:
the function (like the source's, which reads nothing but its argument)
is pure. -/
theorem hashWorkingDir_numeric (wd : JSString) (h : wd ≠ []) :
    ∃ s, hashWorkingDir wd = .ok s ∧ s ≠ [] ∧ s.length ≤ 10 ∧
      ∀ c ∈ s, c.isDigit = true := by
  refine ⟨(natToDecimal (hash31 wd)).take 13, ?_, ?_, ?_, ?_⟩
  · simp [hashWorkingDir, h]
  · have hne : natToDecimal (hash31 wd) ≠ [] := by
      simp only [natToDecimal, ne_eq, List.map_eq_nil_iff,
        List.reverse_eq_nil_iff]
      exact natDigitsRev_ne_nil _
    intro hcon
    have hlen := congrArg List.length hcon
    simp only [List.length_take, List.length_nil] at hlen
    have : (natToDecimal (hash31 wd)).length = 0 := by omega
    exact hne (List.length_eq_zero.mp this)
  · have h32 : hash31 wd < 10 ^ 10 :=
      lt_of_lt_of_le (hash31_lt wd) (by norm_num)
    have hlen := natDigitsRev_len_le 10 (hash31 wd) (by omega) h32
    simp only [List.length_take, natToDecimal, List.length_map,
      List.length_reverse]
    omega
  · intro c hc
    have hc' := List.mem_of_mem_take hc
    simp only [natToDecimal, List.mem_map, List.mem_reverse] at hc'
    obtain ⟨d, hd, rfl⟩ := hc'
    exact digitChar_isDigit d (natDigitsRev_digits_lt _ d hd)

/-- Witness for the amended C6 at the concrete path `"/a"`. -/
theorem hashWorkingDir_numeric_witness :
    js "/a" ≠ [] ∧
      ∃ s, hashWorkingDir (js "/a") = .ok s ∧ s ≠ [] ∧ s.length ≤ 10 ∧
        ∀ c ∈ s, c.isDigit = true :=
  ⟨by decide, hashWorkingDir_numeric (js "/a") (by decide)⟩

/-! ## C8 — protected-directory check is exact path equality -/

/-- A path strictly nested under the Documents subfolder differs from the
home directory and from each of its three protected subfolders. -/
theorem nested_documents_ne (home rest : JSString) :
    pathJoin (pathJoin home (js "Documents")) rest ≠ home ∧
    pathJoin (pathJoin home (js "Documents")) rest ≠
      pathJoin home (js "Desktop") ∧
    pathJoin (pathJoin home (js "Documents")) rest ≠
      pathJoin home (js "Documents") ∧
    pathJoin (pathJoin home (js "Documents")) rest ≠
      pathJoin home (js "Downloads") := by
  have hdocs : js "Documents" = ['D','o','c','u','m','e','n','t','s'] := rfl
  have hdesk : js "Desktop" = ['D','e','s','k','t','o','p'] := rfl
  have hdown : js "Downloads" = ['D','o','w','n','l','o','a','d','s'] := rfl
  refine ⟨?_, ?_, ?_, ?_⟩ <;>
    simp only [pathJoin, hdocs, hdesk, hdown, List.append_assoc,
      List.cons_append, List.nil_append]
  · simp
  · intro h
    rw [List.append_right_inj] at h
    simp at h
  · intro h
    rw [List.append_right_inj] at h
    simp at h
  · intro h
    rw [List.append_right_inj] at h
    simp at h

/-- C8: with a non-empty, accessible workspace path, workspace resolution
(`getWorkingDirectory`) — and likewise the config-level
`validateWorkspacePath` — fails with the protected-directory error **iff**
the path exactly equals the home directory or its Desktop / Documents /
Downloads subfolder; and (exactness) a path strictly nested below the
Documents subfolder never triggers the failure. -/
theorem protected_directory_exact (env : Env)
    (hne : env.workspacePath ≠ []) (hacc : env.accessible = true) :
    ((∃ w, getWorkingDirectory env = .error (.protectedDir w)) ↔
      (env.workspacePath = env.homedir ∨
       env.workspacePath = pathJoin env.homedir (js "Desktop") ∨
       env.workspacePath = pathJoin env.homedir (js "Documents") ∨
       env.workspacePath = pathJoin env.homedir (js "Downloads"))) ∧
    ((∃ w, validateWorkspacePath env = .error (.protectedDir w)) ↔
      (env.workspacePath = env.homedir ∨
       env.workspacePath = pathJoin env.homedir (js "Desktop") ∨
       env.workspacePath = pathJoin env.homedir (js "Documents") ∨
       env.workspacePath = pathJoin env.homedir (js "Downloads"))) ∧
    (∀ rest : JSString,
      ¬ ∃ w, getWorkingDirectory
          { env with workspacePath :=
              pathJoin (pathJoin env.homedir (js "Documents")) rest } =
        .error (.protectedDir w)) := by
  refine ⟨?_, ?_, ?_⟩
  · unfold getWorkingDirectory
    rw [if_neg hne]
    simp only [hacc, Bool.true_eq_false, not_true_eq_false, if_false]
    split_ifs with h1 h2 h3 h4 <;> simp_all
  · unfold validateWorkspacePath
    simp only [hacc, Bool.true_eq_false, not_true_eq_false, if_false]
    split_ifs with h <;> simp_all
  · intro rest
    obtain ⟨q1, q2, q3, q4⟩ := nested_documents_ne env.homedir rest
    unfold getWorkingDirectory
    have hne' : pathJoin (pathJoin env.homedir (js "Documents")) rest ≠ [] := by
      simp [pathJoin]
    rw [if_neg hne']
    simp only [hacc, Bool.true_eq_false, not_true_eq_false, if_false]
    simp [q1, q2, q3, q4]

/-- Witness for C8 at the concrete valid environment `env0`. -/
theorem protected_directory_exact_witness :
    env0.workspacePath ≠ [] ∧ env0.accessible = true ∧
      ((∃ w, getWorkingDirectory env0 = .error (.protectedDir w)) ↔
        (env0.workspacePath = env0.homedir ∨
         env0.workspacePath = pathJoin env0.homedir (js "Desktop") ∨
         env0.workspacePath = pathJoin env0.homedir (js "Documents") ∨
         env0.workspacePath = pathJoin env0.homedir (js "Downloads"))) :=
  ⟨by decide, rfl, (protected_directory_exact env0 (by decide) rfl).1⟩

/-! ## C9 — listing is a stable descending sort; latest is its head -/

/-- C9: for every stored record list, `getAllCheckpoints` returns a
permutation of it that is sorted by timestamp descending, with records of
equal timestamp kept in their stored order (the filter at any fixed
timestamp is unchanged); `getLatestCheckpoint` is the head of that
ordering, and `none` on the empty store. -/
theorem getAllCheckpoints_sorted_stable (l : List CheckpointRec) :
    (getAllCheckpoints (.valid l)).Pairwise
      (fun a b => b.timestamp ≤ a.timestamp) ∧
    List.Perm (getAllCheckpoints (.valid l)) l ∧
    (∀ t : Int,
      (getAllCheckpoints (.valid l)).filter (fun r => r.timestamp == t) =
        l.filter (fun r => r.timestamp == t)) ∧
    getLatestCheckpoint (.valid l) = (getAllCheckpoints (.valid l)).head? ∧
    getLatestCheckpoint (.valid []) = none := by
  refine ⟨?_, ?_, ?_, rfl, rfl⟩
  · exact List.sorted_insertionSort tsDesc l
  · exact List.perm_insertionSort tsDesc l
  · intro t
    set p : CheckpointRec → Bool := fun r => r.timestamp == t with hp
    have hmem : ∀ a ∈ l.filter p, a.timestamp = t := by
      intro a ha
      have := List.of_mem_filter ha
      simpa [hp] using this
    have hpair : (l.filter p).Pairwise tsDesc := by
      apply List.pairwise_of_forall_mem_list
      intro a ha b hb
      show b.timestamp ≤ a.timestamp
      rw [hmem a ha, hmem b hb]
    have h1 : List.Sublist (l.filter p) (List.insertionSort tsDesc l) :=
      List.sublist_insertionSort hpair (List.filter_sublist l)
    have h2 : List.Sublist (l.filter p)
        ((List.insertionSort tsDesc l).filter p) := by
      have := h1.filter p
      simpa [List.filter_filter] using this
    have hperm : List.Perm ((List.insertionSort tsDesc l).filter p)
        (l.filter p) :=
      (List.perm_insertionSort tsDesc l).filter p
    have hlen : (l.filter p).length =
        ((List.insertionSort tsDesc l).filter p).length :=
      hperm.length_eq.symm
    have := h2.eq_of_length hlen
    simpa [getAllCheckpoints, loadMetadata, sortCheckpoints, hp] using
      this.symm

/-! ## C5 — exclusion pattern matching semantics -/

/-- C5: for every relative path and pattern, the implementation's
`matchesPattern` holds exactly when the specification's branch semantics
(`specMatches`) hold: trailing-slash patterns match the directory itself
or anything nested under it; `*.`-leading patterns match by suffix; other
wildcard patterns go through the glob-to-regex translation with the exact
-equality fallback when the translation is invalid; and all remaining
patterns match by full-path or basename equality. -/
theorem matchesPattern_follows_spec (file pattern : JSString) :
    matchesPattern file pattern = true ↔ specMatches file pattern := by
  simp only [matchesPattern, specMatches]
  split_ifs with h1 h2 h3
  · simp only [Bool.or_eq_true, decide_eq_true_eq,
      List.isPrefixOf_iff_prefix]
    constructor
    · rintro (⟨t, ht⟩ | heq)
      · exact Or.inr ⟨t, by rw [← ht]; simp⟩
      · exact Or.inl heq
    · rintro (heq | ⟨rest, hrest⟩)
      · exact Or.inr heq
      · exact Or.inl ⟨rest, by rw [hrest]; simp⟩
  · simp only [List.isSuffixOf_iff_suffix]
    constructor
    · rintro ⟨pre, hpre⟩
      exact ⟨pre, hpre.symm⟩
    · rintro ⟨pre, hpre⟩
      exact ⟨pre, hpre.symm⟩
  · cases h : parseRegex (globTranslate pattern) with
    | some re => simp
    | none => simp
  · simp

/-! ## C2 — `filesChanged` with a previous record -/

/-- Computation of the `try` block of `createCheckpoint` when a previous
record exists: the new commit's tree is the worktree, and `filesChanged`
comes out as the diff count against the previous record's tree. -/
theorem c2_try (st : SysState) (cwdHash newRef newId : JSString)
    (now : Int) (message : Option JSString) (prev : CheckpointRec)
    (prevTree : FileTree)
    (hprev : getLatestCheckpoint st.metaFile = some prev)
    (hptree : commitTree st.git (cleanCommitHash prev.commitHash) = some prevTree)
    (hfresh : commitTree st.git newRef = none)
    (hne : newRef ≠ []) :
    createCheckpointTry st cwdHash newRef newId now message =
      .ok ({ st with
              git := { commits := (newRef, st.git.worktree) :: st.git.commits,
                       worktree := st.git.worktree },
              metaFile := addCheckpoint st.metaFile
                ⟨newId, now, message, newRef,
                 (treeDiffPaths prevTree st.git.worktree).length, cwdHash⟩ },
            { checkpointId := newId, timestamp := now,
              filesChanged := (treeDiffPaths prevTree st.git.worktree).length,
              commitHash := newRef }) := by
  have hclean : cleanCommitHash prev.commitHash ≠ newRef := by
    intro h
    rw [h, hfresh] at hptree
    exact Option.noConfusion hptree
  have hct : commitTree
      { commits := (newRef, st.git.worktree) :: st.git.commits,
        worktree := st.git.worktree }
      (cleanCommitHash prev.commitHash) = some prevTree := by
    unfold commitTree at hptree ⊢
    rw [List.find?_cons_of_neg]
    · exact hptree
    · simp [Ne.symm hclean]
  have hdiff : getDiffCount
      { commits := (newRef, st.git.worktree) :: st.git.commits,
        worktree := st.git.worktree }
      prev.commitHash none =
      .ok (treeDiffPaths prevTree st.git.worktree).length := by
    unfold getDiffCount diffSummaryFiles
    rw [hct]
    rfl
  unfold createCheckpointTry
  simp only [trackerCommit, hprev, hdiff, if_neg hne, bind, Except.bind,
    pure, Except.pure]

/-- C2: whenever a previous checkpoint record exists (and the environment
validates, the backend knows the previous snapshot, and the fresh commit
ref is genuinely fresh and non-empty), the `filesChanged` stored in the
newly appended record — and returned in the result — equals the number of
distinct tracked paths that differ between the previous record's snapshot
tree and the newly created snapshot's tree; in particular it is `0` when
the two snapshots are identical. -/
theorem createCheckpoint_filesChanged (st : SysState)
    (cwdHash newRef newId : JSString) (now : Int)
    (message : Option JSString) (prev : CheckpointRec) (prevTree : FileTree)
    (hval : configValidate st.env = .ok ())
    (hcreate : trackerCreate st.env = .ok cwdHash)
    (hprev : getLatestCheckpoint st.metaFile = some prev)
    (hptree : commitTree st.git (cleanCommitHash prev.commitHash) =
      some prevTree)
    (hfresh : commitTree st.git newRef = none)
    (hne : newRef ≠ []) :
    ∃ st' res newTree,
      createCheckpoint st newRef newId now message = .ok (st', res) ∧
      commitTree st'.git res.commitHash = some newTree ∧
      res.filesChanged = (treeDiffPaths prevTree newTree).length ∧
      loadMetadata st'.metaFile = loadMetadata st.metaFile ++
        [⟨newId, now, message, res.commitHash, res.filesChanged, cwdHash⟩] ∧
      (prevTree = newTree → res.filesChanged = 0) := by
  have htry := c2_try st cwdHash newRef newId now message prev prevTree
    hprev hptree hfresh hne
  refine ⟨{ st with
              git := { commits := (newRef, st.git.worktree) :: st.git.commits,
                       worktree := st.git.worktree },
              metaFile := addCheckpoint st.metaFile
                ⟨newId, now, message, newRef,
                 (treeDiffPaths prevTree st.git.worktree).length, cwdHash⟩ },
          { checkpointId := newId, timestamp := now,
            filesChanged := (treeDiffPaths prevTree st.git.worktree).length,
            commitHash := newRef },
          st.git.worktree, ?_, ?_, rfl, rfl, ?_⟩
  · simp only [createCheckpoint, hval, hcreate, bind, Except.bind, htry]
  · unfold commitTree
    rw [List.find?_cons_of_pos]
    · rfl
    · simp
  · intro h
    rw [h, treeDiffPaths_self]
    rfl

/-- Witness for C2 at the concrete second-checkpoint state `stC2`. -/
theorem createCheckpoint_filesChanged_witness :
    getLatestCheckpoint stC2.metaFile = some rec1 ∧
    ∃ st' res newTree,
      createCheckpoint stC2 (js "c2") (js "id2") 5 none = .ok (st', res) ∧
      commitTree st'.git res.commitHash = some newTree ∧
      res.filesChanged =
        (treeDiffPaths [(js "a.txt", js "hello"), (js "b.txt", js "x")]
          newTree).length ∧
      loadMetadata st'.metaFile = loadMetadata stC2.metaFile ++
        [⟨js "id2", 5, none, res.commitHash, res.filesChanged,
          js "1576"⟩] ∧
      ([(js "a.txt", js "hello"), (js "b.txt", js "x")] = newTree →
        res.filesChanged = 0) :=
  ⟨rfl, createCheckpoint_filesChanged stC2 (js "1576") (js "c2") (js "id2")
    5 none rec1 [(js "a.txt", js "hello"), (js "b.txt", js "x")]
    rfl rfl rfl rfl rfl (by decide)⟩

/-! ## C3 / C4 — rollback: idempotence and the no-throw boundary -/

/-- Fact that `getDiffCount` between two named refs reads only the commit store,
never the worktree. -/
theorem getDiffCount_commits_only (g g' : GitState)
    (h : g.commits = g'.commits) (lhs rh : JSString) :
    getDiffCount g lhs (some rh) = getDiffCount g' lhs (some rh) := by
  unfold getDiffCount diffSummaryFiles commitTree
  rw [h]

/-- A successful hard reset preserves the commit store, and resetting
again to the same ref succeeds and is a no-op. -/
theorem resetHead_self (g : GitState) (hash : JSString) (g' : GitState)
    (h : resetHead g hash = .ok g') :
    g'.commits = g.commits ∧ resetHead g' hash = .ok g' := by
  unfold resetHead at h ⊢
  cases hct : commitTree g (cleanCommitHash hash) with
  | none => rw [hct] at h; exact absurd h (by simp)
  | some t =>
    rw [hct] at h
    injection h with h'
    subst h'
    refine ⟨rfl, ?_⟩
    have : commitTree { g with worktree := t } (cleanCommitHash hash) =
        some t := hct
    rw [this]

/-- Anatomy of a successful `rollbackTry`: it only moves the worktree
(env, metadata and commits are untouched), its result reports success for
the requested id, the target id was present, and — the crux of
idempotence — running it again from the reached state succeeds with the
very same state. -/
theorem rollbackTry_second (st st'' : SysState) (r'' : RollbackResult)
    (id : JSString) (h : rollbackTry st id = .ok (st'', r'')) :
    st''.env = st.env ∧ st''.metaFile = st.metaFile ∧
      st''.git.commits = st.git.commits ∧
      rollbackTry st'' id = .ok (st'', r'') ∧
      r''.success = true ∧ r''.checkpointId = id ∧
      (∃ target, getCheckpoint st.metaFile id = some target) := by
  unfold rollbackTry at h ⊢
  cases hg : getCheckpoint st.metaFile id with
  | none => rw [hg] at h; exact absurd h (by simp)
  | some target =>
    rw [hg] at h
    simp only [bind, Except.bind] at h
    cases htc : trackerCreate st.env with
    | error e => rw [htc] at h; exact absurd h (by simp)
    | ok c =>
      rw [htc] at h
      simp only at h
      cases hl : getLatestCheckpoint st.metaFile with
      | none =>
        rw [hl] at h
        simp only at h
        cases hr : resetHead st.git target.commitHash with
        | error e => rw [hr] at h; exact absurd h (by simp)
        | ok git' =>
          rw [hr] at h
          simp only at h
          injection h with h'
          injection h' with h1 h2
          obtain ⟨hcom, hreset⟩ := resetHead_self _ _ _ hr
          subst h1
          refine ⟨rfl, rfl, hcom, ?_, ?_, ?_, ⟨target, rfl⟩⟩
          · simp only [bind, Except.bind, hg, htc, hl, hreset, h2]
          · rw [← h2]
          · rw [← h2]
      | some current =>
        rw [hl] at h
        simp only at h
        by_cases hid : current.id ≠ id
        · rw [if_pos hid] at h
          cases hd : getDiffCount st.git target.commitHash
              (some current.commitHash) with
          | error e => rw [hd] at h; exact absurd h (by simp)
          | ok n =>
            rw [hd] at h
            simp only at h
            cases hr : resetHead st.git target.commitHash with
            | error e => rw [hr] at h; exact absurd h (by simp)
            | ok git' =>
              rw [hr] at h
              simp only at h
              injection h with h'
              injection h' with h1 h2
              obtain ⟨hcom, hreset⟩ := resetHead_self _ _ _ hr
              subst h1
              refine ⟨rfl, rfl, hcom, ?_, ?_, ?_, ⟨target, rfl⟩⟩
              · have hd' : getDiffCount git' target.commitHash
                    (some current.commitHash) = .ok n := by
                  rw [getDiffCount_commits_only _ _ hcom _ _]
                  exact hd
                simp only [bind, Except.bind, hg, htc, hl, if_pos hid, hd',
                  hreset, h2]
              · rw [← h2]
              · rw [← h2]
        · rw [if_neg hid] at h
          cases hr : resetHead st.git target.commitHash with
          | error e => rw [hr] at h; exact absurd h (by simp)
          | ok git' =>
            rw [hr] at h
            simp only at h
            injection h with h'
            injection h' with h1 h2
            obtain ⟨hcom, hreset⟩ := resetHead_self _ _ _ hr
            subst h1
            refine ⟨rfl, rfl, hcom, ?_, ?_, ?_, ⟨target, rfl⟩⟩
            · simp only [bind, Except.bind, hg, htc, hl, if_neg hid,
                hreset, h2]
            · rw [← h2]
            · rw [← h2]

/-- A successful rollback can be repeated: the second run returns the
same state `st'` (with some structured result). -/
theorem rollbackCheckpoint_second (st st' : SysState) (r : RollbackResult)
    (id : JSString) (h : rollbackCheckpoint st id = .ok (st', r)) :
    ∃ r2, rollbackCheckpoint st' id = .ok (st', r2) := by
  unfold rollbackCheckpoint at h ⊢
  simp only [bind, Except.bind] at h
  cases hv : configValidate st.env with
  | error e => rw [hv] at h; exact absurd h (by simp)
  | ok u =>
    rw [hv] at h
    simp only at h
    cases hh : hashWorkingDir st.env.workspacePath with
    | error e => rw [hh] at h; exact absurd h (by simp)
    | ok w =>
      rw [hh] at h
      simp only at h
      cases ht : rollbackTry st id with
      | error e =>
        rw [ht] at h
        simp only at h
        injection h with h'
        injection h' with h1 h2
        subst h1
        refine ⟨r, ?_⟩
        simp only [bind, Except.bind, hv, hh, ht, h2]
      | ok p =>
        obtain ⟨st'', r''⟩ := p
        rw [ht] at h
        simp only at h
        injection h with h'
        injection h' with h1 h2
        subst h1
        subst h2
        obtain ⟨henv, _hmeta, _hcom, htry2, _, _, _⟩ :=
          rollbackTry_second st st'' r'' id ht
        refine ⟨r'', ?_⟩
        simp only [bind, Except.bind, henv, hv, hh, htry2]

/-- Rollback is idempotent at the whole-state level. -/
theorem rollback_final_aux (st : SysState) (id : JSString) :
    rollbackFinalState (rollbackFinalState st id) id =
      rollbackFinalState st id := by
  unfold rollbackFinalState
  cases h : rollbackCheckpoint st id with
  | error e => rw [h]
  | ok p =>
    obtain ⟨st', r⟩ := p
    obtain ⟨r2, h2⟩ := rollbackCheckpoint_second st st' r id h
    rw [h2]

/-- C3: rollback is idempotent — for every state and checkpoint id,
performing the rollback twice in a row leaves the tracked root's
eligible-file content (the worktree) in the same final state as
performing it once.  (This holds with no proviso: thrown errors and
caught failures leave the state untouched, and a successful hard reset to
a commit is invariant under repetition.) -/
theorem rollback_idempotent (st : SysState) (checkpointId : JSString) :
    (rollbackFinalState (rollbackFinalState st checkpointId)
        checkpointId).git.worktree =
      (rollbackFinalState st checkpointId).git.worktree := by
  rw [rollback_final_aux]

/-- C4 (refuting evaluation): the rollback operation **can** throw across
its boundary.  `config.validate()` runs before the `try`/`catch` in
`rollbackCheckpoint`, so with the workspace path set to the home
directory the call propagates a thrown protected-directory error instead
of returning a structured `{success: false, filesRestored: 0}` result. -/
theorem rollback_throws_on_invalid_config :
    rollbackCheckpoint stBad (js "id1") =
      .error (.protectedDir (js "basename")) := by
  rfl

/-- C4 (amended): provided the workspace configuration validates (the
path is accessible, not protected, and non-empty — `path.resolve` output
is never the empty string), rollback never throws: every failure inside
the operation (unknown checkpoint id, backend error) yields a structured
result with `success = false` and `filesRestored = 0` for the requested
id, an unknown id in particular yields `success = false`, and a
successful run yields `success = true`. -/
theorem rollback_no_throw (st : SysState) (checkpointId : JSString)
    (hval : configValidate st.env = .ok ())
    (hwp : st.env.workspacePath ≠ []) :
    ∃ st' r, rollbackCheckpoint st checkpointId = .ok (st', r) ∧
      (r.success = false → r.filesRestored = 0) ∧
      r.checkpointId = checkpointId ∧
      (getCheckpoint st.metaFile checkpointId = none →
        r.success = false) := by
  have hh : hashWorkingDir st.env.workspacePath =
      .ok ((natToDecimal (hash31 st.env.workspacePath)).take 13) := by
    simp [hashWorkingDir, hwp]
  unfold rollbackCheckpoint
  simp only [bind, Except.bind, hval, hh]
  cases ht : rollbackTry st checkpointId with
  | error e =>
    exact ⟨st, _, rfl, fun _ => rfl, rfl, fun _ => rfl⟩
  | ok p =>
    obtain ⟨st'', r''⟩ := p
    obtain ⟨_, _, _, _, hsucc, hid, target, htarget⟩ :=
      rollbackTry_second st st'' r'' checkpointId ht
    refine ⟨st'', r'', rfl, ?_, hid, ?_⟩
    · intro hfalse
      rw [hsucc] at hfalse
      exact absurd hfalse (by simp)
    · intro hnone
      rw [hnone] at htarget
      exact absurd htarget (by simp)

/-- Witness for the amended C4 at the concrete valid state `st0` and an
unknown checkpoint id. -/
theorem rollback_no_throw_witness :
    configValidate st0.env = .ok () ∧ st0.env.workspacePath ≠ [] ∧
      ∃ st' r, rollbackCheckpoint st0 (js "id1") = .ok (st', r) ∧
        (r.success = false → r.filesRestored = 0) ∧
        r.checkpointId = js "id1" ∧
        (getCheckpoint st0.metaFile (js "id1") = none →
          r.success = false) :=
  ⟨rfl, by decide, rollback_no_throw st0 (js "id1") rfl (by decide)⟩
